import Mathlib

/-!
Verification of the tcp-rpc server core against its specification.

The definitions below are a shallow embedding of the Rust sources:
* the bincode binary encoding (standard configuration with big-endian
  multi-byte values, `BINCODE_CONFIG` in src/server/src/main.rs) for the
  application request and response enums generated by the `rpc` and
  `request` macros (src/macros/src/lib.rs);
* the length-delimited frame codec (`LengthDelimitedCodec::new()` with its
  default 8 MiB maximum frame length);
* the per-connection loop `handle_connection` and the request handler
  `handle_request` (src/server/src/main.rs);
* the tokio `Notify` primitive used as the shutdown signal, and the
  `AtomicU32` connection-id counter.

Machine integers are modelled as `Nat`/`Int` with explicit reduction
modulo powers of two where the Rust code can wrap.
-/

set_option autoImplicit false

/-- Big-endian byte decomposition of a natural number into `w` bytes
(most significant first), as written by bincode for the multi-byte part
of a varint under the big-endian configuration. -/
def natToBeBytes : Nat → Nat → List Nat
  | 0, _ => []
  | w + 1, n => (n / 256 ^ w) % 256 :: natToBeBytes w n

/-- Big-endian recombination of a byte list into a natural number. -/
def beBytesToNat : List Nat → Nat
  | [] => 0
  | b :: rest => b * 256 ^ rest.length + beBytesToNat rest

/-- Read exactly `k` bytes from the front of a byte stream. -/
def readBytes (k : Nat) (l : List Nat) : Option (List Nat × List Nat) :=
  if k ≤ l.length then some (l.take k, l.drop k) else none

/-- bincode varint encoding of an unsigned integer (standard configuration):
values below 251 are a single byte; marker 251 introduces a 2-byte value,
252 a 4-byte value, 253 an 8-byte value and 254 a 16-byte value, each in
the configured (big-endian) byte order. -/
def varintEncode (n : Nat) : List Nat :=
  if n < 251 then [n]
  else if n < 2 ^ 16 then 251 :: natToBeBytes 2 n
  else if n < 2 ^ 32 then 252 :: natToBeBytes 4 n
  else if n < 2 ^ 64 then 253 :: natToBeBytes 8 n
  else 254 :: natToBeBytes 16 n

/-- bincode varint decoding in a `u32` context: markers above 252 do not fit
a `u32` and are a decode error (`none`). -/
def varintDecodeU32 (l : List Nat) : Option (Nat × List Nat) :=
  match l with
  | [] => none
  | b :: r =>
    if b < 251 then some (b, r)
    else if b = 251 then
      match readBytes 2 r with
      | some (bs, rest) => some (beBytesToNat bs, rest)
      | none => none
    else if b = 252 then
      match readBytes 4 r with
      | some (bs, rest) => some (beBytesToNat bs, rest)
      | none => none
    else none

/-- bincode varint decoding in a `u64`/`usize` context: markers above 253 do
not fit a `u64` and are a decode error (`none`). -/
def varintDecodeU64 (l : List Nat) : Option (Nat × List Nat) :=
  match l with
  | [] => none
  | b :: r =>
    if b < 251 then some (b, r)
    else if b = 251 then
      match readBytes 2 r with
      | some (bs, rest) => some (beBytesToNat bs, rest)
      | none => none
    else if b = 252 then
      match readBytes 4 r with
      | some (bs, rest) => some (beBytesToNat bs, rest)
      | none => none
    else if b = 253 then
      match readBytes 8 r with
      | some (bs, rest) => some (beBytesToNat bs, rest)
      | none => none
    else none

/-- bincode zigzag mapping for `i32` (`varint_encode_i32`): non-negative `v`
maps to `2 * v`, negative `v` maps to `-2 * v - 1`. -/
def zigzag32 (i : Int) : Nat :=
  if 0 ≤ i then (2 * i).toNat else (-2 * i - 1).toNat

/-- bincode inverse zigzag mapping (`varint_decode_i32`). -/
def unzigzag (n : Nat) : Int :=
  if n % 2 = 0 then ((n / 2 : Nat) : Int) else -(((n / 2 : Nat) : Int) + 1)

/-- Encoding of an `i32` field: zigzag, then unsigned varint. -/
def encodeI32 (i : Int) : List Nat :=
  varintEncode (zigzag32 i)

/-- Decoding of an `i32` field: unsigned varint in a `u32` context, then
inverse zigzag. -/
def decodeI32 (l : List Nat) : Option (Int × List Nat) :=
  match varintDecodeU32 l with
  | none => none
  | some (n, rest) => some (unzigzag n, rest)

/-- A UTF-8 continuation byte (`0x80..=0xBF`). -/
def utf8IsCont (b : Nat) : Bool :=
  decide (128 ≤ b) && decide (b ≤ 191)

/-- Validity of a byte list as UTF-8 (the check `core::str::from_utf8`
performs when bincode decodes a `String`): ASCII bytes stand alone, lead
bytes `0xC2..=0xF4` are followed by the proper continuation bytes, with the
restricted second-byte ranges that exclude overlong forms, surrogates and
code points above `U+10FFFF`. -/
def utf8Valid : List Nat → Bool
  | [] => true
  | b :: rest =>
    if b ≤ 127 then utf8Valid rest
    else if b < 194 then false
    else if b ≤ 223 then
      match rest with
      | c1 :: r => utf8IsCont c1 && utf8Valid r
      | [] => false
    else if b ≤ 239 then
      match rest with
      | c1 :: c2 :: r =>
        (if b = 224 then decide (160 ≤ c1) && decide (c1 ≤ 191)
         else if b = 237 then decide (128 ≤ c1) && decide (c1 ≤ 159)
         else utf8IsCont c1) && utf8IsCont c2 && utf8Valid r
      | _ => false
    else if b ≤ 244 then
      match rest with
      | c1 :: c2 :: c3 :: r =>
        (if b = 240 then decide (144 ≤ c1) && decide (c1 ≤ 191)
         else if b = 244 then decide (128 ≤ c1) && decide (c1 ≤ 143)
         else utf8IsCont c1) && utf8IsCont c2 && utf8IsCont c3 && utf8Valid r
      | _ => false
    else false

/-- bincode encoding of a Rust `String` (modelled as its UTF-8 byte list):
the byte length as a `usize` varint, then the bytes. -/
def encodeRustString (s : List Nat) : List Nat :=
  varintEncode s.length ++ s

/-- bincode decoding of a Rust `String`: read the length, take that many
bytes, and require them to be valid UTF-8. -/
def decodeRustString (l : List Nat) : Option (List Nat × List Nat) :=
  match varintDecodeU64 l with
  | none => none
  | some (n, r) =>
    match readBytes n r with
    | none => none
    | some (bs, rest) => if utf8Valid bs then some (bs, rest) else none

namespace Server

/-- The `Ping` request payload struct generated by the `request` macro for
`fn Ping() -> String` (no fields). -/
structure Ping where
deriving DecidableEq

/-- The `Pong` request payload struct generated by the `request` macro for
`fn Pong() -> String` (no fields). -/
structure Pong where
deriving DecidableEq

/-- The `Add` request payload struct generated by the `request` macro for
`fn Add(lhs: i32, rhs: i32) -> i32`. The two `i32` fields are modelled as
`Int`; representable values lie in `[-2^31, 2^31)`. -/
structure Add where
  lhs : Int
  rhs : Int
deriving DecidableEq

/-- The request enum of src/server/src/main.rs:
`enum AppRequest { Ping(Ping), Pong(Pong), Add(Add) }`. -/
inductive AppRequest where
  | Ping (p : Ping)
  | Pong (p : Pong)
  | Add (a : Add)
deriving DecidableEq

/-- The response enum generated by the `rpc` macro: one variant per request
variant, carrying that request handler response type
(`Ping(String), Pong(String), Add(i32)`). Strings are modelled as their
UTF-8 byte lists. -/
inductive AppResponse where
  | Ping (s : List Nat)
  | Pong (s : List Nat)
  | Add (n : Int)
deriving DecidableEq

/-- The discriminant ("tag") shared by the request and response enums. -/
inductive Tag where
  | ping
  | pong
  | add
deriving DecidableEq

/-- Tag of a request value. -/
def AppRequest.tag : AppRequest → Tag
  | .Ping _ => .ping
  | .Pong _ => .pong
  | .Add _ => .add

/-- Tag of a response value. -/
def AppResponse.tag : AppResponse → Tag
  | .Ping _ => .ping
  | .Pong _ => .pong
  | .Add _ => .add

/-- UTF-8 bytes of the string literal returned by the `Ping` handler,
"You have been pinged". -/
def pingReply : List Nat :=
  [89, 111, 117, 32, 104, 97, 118, 101, 32, 98, 101, 101, 110, 32,
   112, 105, 110, 103, 101, 100]

/-- UTF-8 bytes of the string literal returned by the `Pong` handler,
"The pong has been sent". -/
def pongReply : List Nat :=
  [84, 104, 101, 32, 112, 111, 110, 103, 32, 104, 97, 115, 32, 98, 101,
   101, 110, 32, 115, 101, 110, 116]

/-- Two-complement wrap of an integer into the `i32` range, the behaviour
of Rust `i32` addition when overflow checks are off. -/
def wrapI32 (i : Int) : Int :=
  (i + 2147483648) % 4294967296 - 2147483648

/-- The `handle` method of the generated `Request` impl for `AppRequest`:
the `rpc` macro match dispatches each variant to its handler function and
wraps the result in the same-named response variant. `__Ping` and `__Pong`
return fixed strings; `__Add` returns `lhs + rhs` on `i32`. -/
def AppRequest.handle : AppRequest → AppResponse
  | .Ping _ => .Ping pingReply
  | .Pong _ => .Pong pongReply
  | .Add a => .Add (wrapI32 (a.lhs + a.rhs))

/-- bincode encoding of `AppRequest` (derived `Encode` under
`BINCODE_CONFIG`): a `u32` varint discriminant, then the variant fields in
order. -/
def AppRequest.encode : AppRequest → List Nat
  | .Ping _ => varintEncode 0
  | .Pong _ => varintEncode 1
  | .Add a => varintEncode 2 ++ encodeI32 a.lhs ++ encodeI32 a.rhs

/-- bincode decoding of `AppRequest` (derived `Decode`): read the `u32`
varint discriminant, then the fields of the matching variant; any other
discriminant is an `UnexpectedVariant` decode error. -/
def AppRequest.decode (l : List Nat) : Option (AppRequest × List Nat) :=
  match varintDecodeU32 l with
  | none => none
  | some (d, r) =>
    if d = 0 then some (.Ping {}, r)
    else if d = 1 then some (.Pong {}, r)
    else if d = 2 then
      match decodeI32 r with
      | none => none
      | some (lhs, r2) =>
        match decodeI32 r2 with
        | none => none
        | some (rhs, r3) => some (.Add { lhs := lhs, rhs := rhs }, r3)
    else none

/-- bincode encoding of `AppResponse` (derived `Encode`). -/
def AppResponse.encode : AppResponse → List Nat
  | .Ping s => varintEncode 0 ++ encodeRustString s
  | .Pong s => varintEncode 1 ++ encodeRustString s
  | .Add n => varintEncode 2 ++ encodeI32 n

/-- bincode decoding of `AppResponse` (derived `Decode`). -/
def AppResponse.decode (l : List Nat) : Option (AppResponse × List Nat) :=
  match varintDecodeU32 l with
  | none => none
  | some (d, r) =>
    if d = 0 then
      match decodeRustString r with
      | none => none
      | some (s, rest) => some (.Ping s, rest)
    else if d = 1 then
      match decodeRustString r with
      | none => none
      | some (s, rest) => some (.Pong s, rest)
    else if d = 2 then
      match decodeI32 r with
      | none => none
      | some (n, rest) => some (.Add n, rest)
    else none

/-- Representability of a request value: the `i32` fields lie in the `i32`
range. -/
def validAppRequest : AppRequest → Bool
  | .Ping _ => true
  | .Pong _ => true
  | .Add a => decide (-2147483648 ≤ a.lhs) && decide (a.lhs < 2147483648)
      && decide (-2147483648 ≤ a.rhs) && decide (a.rhs < 2147483648)

/-- Representability of a response value: strings are valid UTF-8 of
`usize` length, integers lie in the `i32` range. -/
def validAppResponse : AppResponse → Bool
  | .Ping s => utf8Valid s && decide (s.length < 2 ^ 64)
  | .Pong s => utf8Valid s && decide (s.length < 2 ^ 64)
  | .Add n => decide (-2147483648 ≤ n) && decide (n < 2147483648)

/-- The server error enum of src/server/src/main.rs: `Io` (from
`std::io::Error`), `BincodeDecode`, `BincodeEncode`, and `InvalidRequest`.
The source payloads carry only error details and are dropped here. -/
inductive ConnError where
  | ioError
  | bincodeDecode
  | bincodeEncode
  | invalidRequest
deriving DecidableEq

/-- `handle_request` of src/server/src/main.rs: bincode-decode the frame
payload into an `AppRequest` (a failure is propagated as the
`BincodeDecode` error variant; the count of bytes consumed is discarded by
`.map(|(val, _)| val)`, so trailing bytes are ignored), dispatch via
`handle`, and bincode-encode the response. Encoding the closed response
type cannot fail, so the model never produces the `BincodeEncode` variant,
matching the source where that variant only arises from
`bincode::encode_to_vec`. -/
def handle_request (req_bytes : List Nat) : Except ConnError (List Nat) :=
  match AppRequest.decode req_bytes with
  | none => Except.error ConnError.bincodeDecode
  | some (req, _) => Except.ok (AppResponse.encode req.handle)

/-- One resolution of the `select!` race inside the `handle_connection`
loop: a frame arrives (with the fate `sendOk` of the subsequent response
write), the framed read fails, the stream ends cleanly, or the shutdown
signal is observed. -/
inductive ConnEvent where
  | frame (payload : List Nat) (sendOk : Bool)
  | readError
  | endOfStream
  | shutdownSignal
deriving DecidableEq

/-- Result of running `handle_connection` on a trace of events: the
response frames written, the function result (`none` while the loop is
still awaiting its next event, `some none` for `Ok(())`, `some (some e)`
for `Err(e)`), and whether the `framed.get_mut().shutdown()` line was
reached. -/
structure ConnResult where
  sent : List (List Nat)
  outcome : Option (Option ConnError)
  shutdownAttempted : Bool
deriving DecidableEq

/-- The code after the loop of `handle_connection`: the socket shutdown is
attempted; if it fails the function returns `Err(Io)`, otherwise
`Ok(())`. -/
def finishConn (sent : List (List Nat)) (shutdownOk : Bool) : ConnResult :=
  { sent := sent,
    outcome := some (if shutdownOk then none else some ConnError.ioError),
    shutdownAttempted := true }

/-- The loop of `handle_connection`, one event per iteration. A read error
or a `handle_request` error propagates through `?` and returns without
reaching the socket-shutdown line; a failed `framed.send` returns
`Err(Io)` the same way; `None` from the stream (end of stream) and the
shutdown branch `break` to the socket-shutdown line. -/
def runConnectionAux (shutdownOk : Bool) (sent : List (List Nat)) :
    List ConnEvent → ConnResult
  | [] => { sent := sent, outcome := none, shutdownAttempted := false }
  | ConnEvent.readError :: _ =>
      { sent := sent, outcome := some (some ConnError.ioError),
        shutdownAttempted := false }
  | ConnEvent.endOfStream :: _ => finishConn sent shutdownOk
  | ConnEvent.shutdownSignal :: _ => finishConn sent shutdownOk
  | ConnEvent.frame p sendOk :: rest =>
      match handle_request p with
      | Except.error e =>
          { sent := sent, outcome := some (some e), shutdownAttempted := false }
      | Except.ok respBytes =>
          if sendOk then runConnectionAux shutdownOk (sent ++ [respBytes]) rest
          else { sent := sent, outcome := some (some ConnError.ioError),
                 shutdownAttempted := false }

/-- `handle_connection` of src/server/src/main.rs, as a function of the
trace of events its `select!` loop observes and of whether the final socket
shutdown call succeeds. -/
def handle_connection (events : List ConnEvent) (shutdownOk : Bool) : ConnResult :=
  runConnectionAux shutdownOk [] events

/-- Default maximum frame length of `LengthDelimitedCodec::new()`:
8 MiB. -/
def max_frame_length : Nat := 8 * 1024 * 1024

/-- Result of one `LengthDelimitedCodec` decode step on the read buffer. -/
inductive FrameDecodeResult where
  | needMoreData
  | frameTooBig
  | frame (payload : List Nat) (rest : List Nat)
deriving DecidableEq

/-- One decode step of `LengthDelimitedCodec` with its defaults (4-byte
big-endian length field, 8 MiB maximum): with fewer than 4 bytes buffered
it asks for more data; once the length field is readable it is checked
against `max_frame_length` before any payload is awaited or reserved, and
an oversized declared length is an immediate error; otherwise the payload
is yielded only when complete. -/
def decode_frame (buf : List Nat) : FrameDecodeResult :=
  if buf.length < 4 then FrameDecodeResult.needMoreData
  else
    let n := beBytesToNat (buf.take 4)
    if max_frame_length < n then FrameDecodeResult.frameTooBig
    else if buf.length < 4 + n then FrameDecodeResult.needMoreData
    else FrameDecodeResult.frame ((buf.drop 4).take n) ((buf.drop 4).drop n)

/-- State of a `tokio::sync::Notify`: whether the single permit is stored,
and how many tasks are currently blocked in `notified()`. -/
structure NotifyState where
  storedPermit : Bool
  waiting : Nat
deriving DecidableEq

/-- `Notify::notify_one` (the call made by the ctrl-c task in `main`): if a
task is currently waiting, exactly one of them is woken; otherwise the
single permit is stored for the next `notified()` call. The second
component is the number of waiters that observe this notification. -/
def notify_one (s : NotifyState) : NotifyState × Nat :=
  if 0 < s.waiting then
    ({ storedPermit := s.storedPermit, waiting := s.waiting - 1 }, 1)
  else
    ({ storedPermit := true, waiting := s.waiting }, 0)

/-- `CONNECTION_ID_COUNTER` after `k` accepts: the counter is an
`AtomicU32` initialised to 1, and each accept performs a wrapping
`fetch_add(1)`. -/
def counterAfter : Nat → Nat
  | 0 => 1
  | k + 1 => (counterAfter k + 1) % 4294967296

/-- The connection id assigned to the `k`-th accepted connection (0-based):
the counter value returned by its `fetch_add(1, Ordering::Relaxed)`. -/
def connectionId (k : Nat) : Nat := counterAfter k

end Server

theorem natToBeBytes_length (w n : Nat) : (natToBeBytes w n).length = w := by
  induction w generalizing n with
  | zero => rfl
  | succ w ih => simp [natToBeBytes, ih]

theorem beBytesToNat_natToBeBytes (w n : Nat) :
    beBytesToNat (natToBeBytes w n) = n % 256 ^ w := by
  induction w generalizing n with
  | zero => simp [natToBeBytes, beBytesToNat, Nat.mod_one]
  | succ w ih =>
      have hmul : n % (256 ^ w * 256) = n % 256 ^ w + 256 ^ w * (n / 256 ^ w % 256) :=
        Nat.mod_mul
      simp only [natToBeBytes, beBytesToNat, natToBeBytes_length, ih, pow_succ, hmul]
      ring

theorem readBytes_append (bs rest : List Nat) :
    readBytes bs.length (bs ++ rest) = some (bs, rest) := by
  simp [readBytes, List.take_left, List.drop_left]

theorem readBytes_natToBeBytes (w n : Nat) (rest : List Nat) :
    readBytes w (natToBeBytes w n ++ rest) = some (natToBeBytes w n, rest) := by
  have h := readBytes_append (natToBeBytes w n) rest
  rwa [natToBeBytes_length] at h

theorem varintDecodeU32_varintEncode (n : Nat) (rest : List Nat) (h : n < 2 ^ 32) :
    varintDecodeU32 (varintEncode n ++ rest) = some (n, rest) := by
  have h32 : n < 4294967296 := by omega
  by_cases h1 : n < 251
  · simp [varintEncode, varintDecodeU32, h1]
  · by_cases h2 : n < 65536
    · have hmod : n % 65536 = n := Nat.mod_eq_of_lt h2
      simp [varintEncode, varintDecodeU32, h1, h2, readBytes_natToBeBytes,
        beBytesToNat_natToBeBytes, hmod]
    · have hmod : n % 4294967296 = n := Nat.mod_eq_of_lt h32
      simp [varintEncode, varintDecodeU32, h1, h2, h32, readBytes_natToBeBytes,
        beBytesToNat_natToBeBytes, hmod]

theorem varintDecodeU64_varintEncode (n : Nat) (rest : List Nat) (h : n < 2 ^ 64) :
    varintDecodeU64 (varintEncode n ++ rest) = some (n, rest) := by
  have h64 : n < 18446744073709551616 := by omega
  by_cases h1 : n < 251
  · simp [varintEncode, varintDecodeU64, h1]
  · by_cases h2 : n < 65536
    · have hmod : n % 65536 = n := Nat.mod_eq_of_lt h2
      simp [varintEncode, varintDecodeU64, h1, h2, readBytes_natToBeBytes,
        beBytesToNat_natToBeBytes, hmod]
    · by_cases h3 : n < 4294967296
      · have hmod : n % 4294967296 = n := Nat.mod_eq_of_lt h3
        simp [varintEncode, varintDecodeU64, h1, h2, h3, readBytes_natToBeBytes,
          beBytesToNat_natToBeBytes, hmod]
      · have hmod : n % 18446744073709551616 = n := Nat.mod_eq_of_lt h64
        simp [varintEncode, varintDecodeU64, h1, h2, h3, h64, readBytes_natToBeBytes,
          beBytesToNat_natToBeBytes, hmod]

theorem unzigzag_zigzag32 (i : Int) : unzigzag (zigzag32 i) = i := by
  unfold zigzag32 unzigzag
  by_cases h : 0 ≤ i
  · simp only [if_pos h]
    have h2 : ((2 * i).toNat : Int) = 2 * i := Int.toNat_of_nonneg (by omega)
    omega
  · simp only [if_neg h]
    have h2 : ((-2 * i - 1).toNat : Int) = -2 * i - 1 := Int.toNat_of_nonneg (by omega)
    omega

theorem zigzag32_lt (i : Int) (hlo : -2147483648 ≤ i) (hhi : i < 2147483648) :
    zigzag32 i < 2 ^ 32 := by
  have h32 : (2 : Nat) ^ 32 = 4294967296 := by norm_num
  unfold zigzag32
  rw [h32]
  split <;> omega

theorem decodeI32_encodeI32 (i : Int) (rest : List Nat)
    (hlo : -2147483648 ≤ i) (hhi : i < 2147483648) :
    decodeI32 (encodeI32 i ++ rest) = some (i, rest) := by
  unfold decodeI32 encodeI32
  rw [varintDecodeU32_varintEncode (zigzag32 i) rest (zigzag32_lt i hlo hhi)]
  simp [unzigzag_zigzag32]

theorem decodeRustString_encodeRustString (s : List Nat) (rest : List Nat)
    (hlen : s.length < 2 ^ 64) (hvalid : utf8Valid s = true) :
    decodeRustString (encodeRustString s ++ rest) = some (s, rest) := by
  unfold decodeRustString encodeRustString
  rw [List.append_assoc, varintDecodeU64_varintEncode s.length (s ++ rest) hlen]
  simp [readBytes_append, hvalid]

namespace Server

theorem decode_encode_request (req : AppRequest) (rest : List Nat)
    (h : validAppRequest req = true) :
    AppRequest.decode (AppRequest.encode req ++ rest) = some (req, rest) := by
  have hd0 : (0 : Nat) < 2 ^ 32 := by norm_num
  have hd1 : (1 : Nat) < 2 ^ 32 := by norm_num
  have hd2 : (2 : Nat) < 2 ^ 32 := by norm_num
  cases req with
  | Ping p =>
      cases p
      simp [AppRequest.encode, AppRequest.decode,
        varintDecodeU32_varintEncode 0 rest hd0]
  | Pong p =>
      cases p
      simp [AppRequest.encode, AppRequest.decode,
        varintDecodeU32_varintEncode 1 rest hd1]
  | Add a =>
      simp only [validAppRequest, Bool.and_eq_true, decide_eq_true_eq] at h
      obtain ⟨⟨⟨h1, h2⟩, h3⟩, h4⟩ := h
      have e1 := decodeI32_encodeI32 a.lhs (encodeI32 a.rhs ++ rest) h1 h2
      have e2 := decodeI32_encodeI32 a.rhs rest h3 h4
      have ed := varintDecodeU32_varintEncode 2 (encodeI32 a.lhs ++ (encodeI32 a.rhs ++ rest)) hd2
      simp [AppRequest.encode, AppRequest.decode, List.append_assoc, ed, e1, e2]

theorem decode_encode_response (resp : AppResponse) (rest : List Nat)
    (h : validAppResponse resp = true) :
    AppResponse.decode (AppResponse.encode resp ++ rest) = some (resp, rest) := by
  have hd0 : (0 : Nat) < 2 ^ 32 := by norm_num
  have hd1 : (1 : Nat) < 2 ^ 32 := by norm_num
  have hd2 : (2 : Nat) < 2 ^ 32 := by norm_num
  cases resp with
  | Ping s =>
      simp only [validAppResponse, Bool.and_eq_true, decide_eq_true_eq] at h
      obtain ⟨hvalid, hlen⟩ := h
      have es := decodeRustString_encodeRustString s rest hlen hvalid
      have ed := varintDecodeU32_varintEncode 0 (encodeRustString s ++ rest) hd0
      simp [AppResponse.encode, AppResponse.decode, List.append_assoc, ed, es]
  | Pong s =>
      simp only [validAppResponse, Bool.and_eq_true, decide_eq_true_eq] at h
      obtain ⟨hvalid, hlen⟩ := h
      have es := decodeRustString_encodeRustString s rest hlen hvalid
      have ed := varintDecodeU32_varintEncode 1 (encodeRustString s ++ rest) hd1
      simp [AppResponse.encode, AppResponse.decode, List.append_assoc, ed, es]
  | Add n =>
      simp only [validAppResponse, Bool.and_eq_true, decide_eq_true_eq] at h
      obtain ⟨h1, h2⟩ := h
      have en := decodeI32_encodeI32 n rest h1 h2
      have ed := varintDecodeU32_varintEncode 2 (encodeI32 n ++ rest) hd2
      simp [AppResponse.encode, AppResponse.decode, List.append_assoc, ed, en]

theorem handle_request_error_eq (p : List Nat) (e : ConnError)
    (h : handle_request p = Except.error e) : e = ConnError.bincodeDecode := by
  unfold handle_request at h
  split at h
  · injection h with h2
    exact h2.symm
  · exact Except.noConfusion h

theorem counterAfter_closed (k : Nat) :
    Server.counterAfter k = (1 + k) % 4294967296 := by
  induction k with
  | zero => simp [Server.counterAfter]
  | succ k ih =>
      rw [Server.counterAfter, ih, Nat.mod_add_mod]
      ring_nf

end Server

namespace Server

theorem runConnectionAux_shutdownAttempted_iff (evs : List ConnEvent)
    (sent : List (List Nat)) :
    (runConnectionAux true sent evs).shutdownAttempted = true ↔
    (runConnectionAux true sent evs).outcome = some none := by
  induction evs generalizing sent with
  | nil => simp [runConnectionAux]
  | cons ev rest ih =>
      cases ev with
      | readError => simp [runConnectionAux]
      | endOfStream => simp [runConnectionAux, finishConn]
      | shutdownSignal => simp [runConnectionAux, finishConn]
      | frame p sendOk =>
          cases hr : handle_request p with
          | error e => simp [runConnectionAux, hr]
          | ok resp =>
              cases sendOk with
              | true =>
                  have hstep : runConnectionAux true sent
                      (ConnEvent.frame p true :: rest) =
                      runConnectionAux true (sent ++ [resp]) rest := by
                    simp [runConnectionAux, hr]
                  rw [hstep]
                  exact ih (sent ++ [resp])
              | false => simp [runConnectionAux, hr]

theorem runConnectionAux_outcome_cases (evs : List ConnEvent)
    (shutdownOk : Bool) (sent : List (List Nat)) :
    (runConnectionAux shutdownOk sent evs).outcome = none ∨
    (runConnectionAux shutdownOk sent evs).outcome = some none ∨
    (runConnectionAux shutdownOk sent evs).outcome = some (some ConnError.ioError) ∨
    (runConnectionAux shutdownOk sent evs).outcome =
      some (some ConnError.bincodeDecode) := by
  induction evs generalizing sent with
  | nil => left; rfl
  | cons ev rest ih =>
      cases ev with
      | readError =>
          right; right; left
          simp [runConnectionAux]
      | endOfStream =>
          cases shutdownOk with
          | true => right; left; simp [runConnectionAux, finishConn]
          | false => right; right; left; simp [runConnectionAux, finishConn]
      | shutdownSignal =>
          cases shutdownOk with
          | true => right; left; simp [runConnectionAux, finishConn]
          | false => right; right; left; simp [runConnectionAux, finishConn]
      | frame p sendOk =>
          cases hr : handle_request p with
          | error e =>
              have he := handle_request_error_eq p e hr
              subst he
              right; right; right
              simp [runConnectionAux, hr]
          | ok resp =>
              cases sendOk with
              | true =>
                  have hstep : runConnectionAux shutdownOk sent
                      (ConnEvent.frame p true :: rest) =
                      runConnectionAux shutdownOk (sent ++ [resp]) rest := by
                    simp [runConnectionAux, hr]
                  rw [hstep]
                  exact ih (sent ++ [resp])
              | false =>
                  right; right; left
                  simp [runConnectionAux, hr]

end Server

namespace Server

/-- Claim C1 (code evidence). The shutdown path of `main` signals shutdown
with `Notify::notify_one`, which is observed by at most one waiter: with
two Connection Sessions idle awaiting their next frame and the accept loop
also awaiting the signal (three blocked waiters), firing the signal wakes
exactly one of the three, so the remaining sessions and/or the accept loop
never observe it — the signal is not the process-wide broadcast the
specification describes. -/
theorem notify_one_wakes_at_most_one_waiter :
    (notify_one { storedPermit := false, waiting := 3 }).2 = 1 ∧
    ∀ s : NotifyState, (notify_one s).2 ≤ 1 := by
  constructor
  · rfl
  · intro s
    unfold notify_one
    split <;> simp

/-- Claim C2 counterexample. A connection whose first frame fails to decode
exits `handle_connection` through the `?` operator with a
`BincodeDecode` error and never reaches the socket-shutdown line, so the
clean socket shutdown is not attempted on every exit path. -/
theorem decode_error_exit_skips_socket_shutdown :
    (handle_connection [ConnEvent.frame [200] true] true).shutdownAttempted
      = false ∧
    (handle_connection [ConnEvent.frame [200] true] true).outcome
      = some (some ConnError.bincodeDecode) := by
  constructor <;> rfl

/-- Claim C2 as amended. With a succeeding socket-shutdown call, the clean
shutdown of the underlying socket is attempted exactly on the exits that
break out of the loop — clean peer EOF and shutdown observation — which is
also exactly when the session returns `Ok`; on decode, encode and transport
errors the session returns early without attempting it. -/
theorem socket_shutdown_iff_clean_exit (evs : List ConnEvent) :
    (handle_connection evs true).shutdownAttempted = true ↔
    (handle_connection evs true).outcome = some none :=
  runConnectionAux_shutdownAttempted_iff evs []

/-- Claim C3. Round-trip law: for every representable Request or Response
value `v`, bincode decoding of the bincode encoding of `v` under the fixed
big-endian configuration yields exactly `v` (consuming all of the
bytes). -/
theorem roundtrip_decode_encode :
    (∀ req : AppRequest, validAppRequest req = true →
      AppRequest.decode (AppRequest.encode req) = some (req, [])) ∧
    (∀ resp : AppResponse, validAppResponse resp = true →
      AppResponse.decode (AppResponse.encode resp) = some (resp, [])) := by
  constructor
  · intro req h
    have hd := decode_encode_request req [] h
    simpa using hd
  · intro resp h
    have hd := decode_encode_response resp [] h
    simpa using hd

/-- Witness for claim C3 at concrete values: an `Add` request whose fields
need multi-byte big-endian varints, and a `Ping` response carrying a
string. -/
theorem roundtrip_decode_encode_witness :
    AppRequest.decode (AppRequest.encode
        (AppRequest.Add { lhs := 300, rhs := -7 })) =
      some (AppRequest.Add { lhs := 300, rhs := -7 }, []) ∧
    AppResponse.decode (AppResponse.encode (AppResponse.Ping pingReply)) =
      some (AppResponse.Ping pingReply, []) :=
  ⟨roundtrip_decode_encode.1 _ (by decide),
   roundtrip_decode_encode.2 _ (by decide)⟩

/-- Claim C4. A frame whose payload fails to decode into a Request
terminates the connection with a `BincodeDecode` error: no response frame
of any kind is sent (the sent list is empty regardless of whether a write
would have succeeded) and no further events are processed. -/
theorem decode_failure_closes_without_response
    (p : List Nat) (sendOk : Bool) (rest : List ConnEvent) (shutdownOk : Bool)
    (h : AppRequest.decode p = none) :
    handle_connection (ConnEvent.frame p sendOk :: rest) shutdownOk =
      { sent := [], outcome := some (some ConnError.bincodeDecode),
        shutdownAttempted := false } := by
  cases sendOk <;>
    simp [handle_connection, runConnectionAux, handle_request, h]

/-- Witness for claim C4: the one-byte payload `[251]` is a truncated
varint and fails to decode; the connection closes with the decode error and
sends nothing. -/
theorem decode_failure_closes_without_response_witness :
    handle_connection [ConnEvent.frame [251] true] true =
      { sent := [], outcome := some (some ConnError.bincodeDecode),
        shutdownAttempted := false } :=
  decode_failure_closes_without_response [251] true [] true (by decide)

/-- Claim C5. Dispatch is total over the closed Request variant set: for
every variant and payload, `handle` returns a Response of the same variant
— never another variant and never an error. -/
theorem dispatch_preserves_variant (req : AppRequest) :
    (AppRequest.handle req).tag = req.tag := by
  cases req <;> rfl

/-- Claim C6. A buffered length field that declares more than
`max_frame_length` bytes makes the codec fail immediately with the
frame-too-big error, for every buffer continuation — including the empty
one, i.e. before any payload byte has arrived or been allocated. -/
theorem oversized_frame_rejected_without_payload
    (header rest : List Nat) (h4 : header.length = 4)
    (hbig : max_frame_length < beBytesToNat header) :
    decode_frame (header ++ rest) = FrameDecodeResult.frameTooBig := by
  have hlen : (header ++ rest).length = 4 + rest.length := by simp [h4]
  have htake : (header ++ rest).take 4 = header := by
    rw [← h4]
    exact List.take_left header rest
  have h1 : ¬ ((header ++ rest).length < 4) := by omega
  simp only [decode_frame, htake, if_neg h1, if_pos hbig]

/-- Witness for claim C6: a bare 4-byte header declaring 4294967295
payload bytes, with not a single payload byte present, is rejected at
once. -/
theorem oversized_frame_rejected_without_payload_witness :
    decode_frame ([255, 255, 255, 255] ++ []) = FrameDecodeResult.frameTooBig :=
  oversized_frame_rejected_without_payload [255, 255, 255, 255] []
    (by decide) (by decide)

/-- Claim C7 counterexample. The connection-id counter is a wrapping
`AtomicU32`: accept number 4294967296 receives the same id as accept
number 0, so ids are reused within the process lifetime once the counter
wraps. -/
theorem connection_id_reused_after_wraparound :
    connectionId 4294967296 = connectionId 0 ∧ (4294967296 : Nat) ≠ 0 := by
  constructor
  · rw [connectionId, connectionId, counterAfter_closed, counterAfter_closed]
  · decide

/-- Claim C7 as amended. Connection ids are pairwise distinct among the
first 2^32 accepted connections, and strictly increasing among the first
2^32 - 1; only once the 32-bit counter wraps do ids repeat. -/
theorem connection_ids_distinct_before_wraparound (j k : Nat)
    (hjk : j < k) (hk : k < 4294967296) :
    connectionId j ≠ connectionId k ∧
    (k < 4294967295 → connectionId j < connectionId k) := by
  have h1 : connectionId j = (1 + j) % 4294967296 := counterAfter_closed j
  have h2 : connectionId k = (1 + k) % 4294967296 := counterAfter_closed k
  have hjlt : 1 + j < 4294967296 := by omega
  rw [h1, h2, Nat.mod_eq_of_lt hjlt]
  by_cases hke : k = 4294967295
  · subst hke
    have hz : (1 + 4294967295) % 4294967296 = 0 := by norm_num
    rw [hz]
    exact ⟨by omega, by omega⟩
  · have hklt : 1 + k < 4294967296 := by omega
    rw [Nat.mod_eq_of_lt hklt]
    exact ⟨by omega, fun _ => by omega⟩

/-- Witness for claim C7 (amended): the first two accepts receive distinct,
increasing ids. -/
theorem connection_ids_distinct_witness :
    connectionId 0 < connectionId 1 ∧ connectionId 0 ≠ connectionId 1 :=
  ⟨(connection_ids_distinct_before_wraparound 0 1 (by norm_num)
      (by norm_num)).2 (by norm_num),
   (connection_ids_distinct_before_wraparound 0 1 (by norm_num)
      (by norm_num)).1⟩

/-- Claim C8 counterexample. The Add handler computes `lhs + rhs` on `i32`,
which wraps on overflow (and would panic with overflow checks on): for
`lhs = 2147483647, rhs = 1` it produces `-2147483648`, not the integer sum
`2147483648`. -/
theorem add_handler_overflow_wraps :
    AppRequest.handle (AppRequest.Add { lhs := 2147483647, rhs := 1 }) =
      AppResponse.Add (-2147483648) ∧
    (2147483647 + 1 : Int) ≠ -2147483648 := by
  constructor
  · rfl
  · decide

/-- Claim C8 as amended. Dispatching `Add{lhs: 2, rhs: 3}` produces
`Add(5)`; in general the Add handler returns the 32-bit wrapping sum of its
payload fields, which equals the integer sum `lhs + rhs` whenever that sum
fits in `i32`. -/
theorem add_handler_sum :
    AppRequest.handle (AppRequest.Add { lhs := 2, rhs := 3 }) =
      AppResponse.Add 5 ∧
    ∀ l r : Int, -2147483648 ≤ l + r → l + r < 2147483648 →
      AppRequest.handle (AppRequest.Add { lhs := l, rhs := r }) =
        AppResponse.Add (l + r) := by
  constructor
  · rfl
  · intro l r hlo hhi
    simp only [AppRequest.handle, AppResponse.Add.injEq, wrapI32]
    omega

/-- Witness for claim C8 (amended): an in-range sum. -/
theorem add_handler_sum_witness :
    AppRequest.handle (AppRequest.Add { lhs := 10, rhs := -3 }) =
      AppResponse.Add 7 :=
  add_handler_sum.2 10 (-3) (by norm_num) (by norm_num)

/-- Claim C9. `handle_request` never compares the count of bytes bincode
consumed with the payload length: appending arbitrary trailing bytes to any
representable encoded request still decodes to that request (with the
trailing bytes left over) and `handle_request` succeeds, silently ignoring
them. -/
theorem trailing_bytes_ignored (req : AppRequest) (extra : List Nat)
    (h : validAppRequest req = true) :
    AppRequest.decode (AppRequest.encode req ++ extra) = some (req, extra) ∧
    handle_request (AppRequest.encode req ++ extra) =
      Except.ok (AppResponse.encode (AppRequest.handle req)) := by
  have hd := decode_encode_request req extra h
  exact ⟨hd, by simp [handle_request, hd]⟩

/-- Witness for claim C9: a `Ping` request followed by three junk bytes is
accepted and answered. -/
theorem trailing_bytes_ignored_witness :
    AppRequest.decode (AppRequest.encode (AppRequest.Ping {}) ++ [7, 7, 7]) =
      some (AppRequest.Ping {}, [7, 7, 7]) ∧
    handle_request (AppRequest.encode (AppRequest.Ping {}) ++ [7, 7, 7]) =
      Except.ok (AppResponse.encode (AppResponse.Ping pingReply)) := by
  have h := trailing_bytes_ignored (AppRequest.Ping {}) [7, 7, 7] (by decide)
  simpa using h

/-- Claim C10. The error variant `InvalidRequest` is unreachable:
`handle_request` returns either a `BincodeDecode` error or a successful
response, and every outcome of `handle_connection` is success, still
running, an `Io` error or a `BincodeDecode` error — never
`InvalidRequest` (and never `BincodeEncode`, which is also dead in the
model since encoding the closed response type is total). -/
theorem invalid_request_error_unreachable :
    (∀ p : List Nat, handle_request p = Except.error ConnError.bincodeDecode ∨
      ∃ resp, handle_request p = Except.ok resp) ∧
    (∀ (evs : List ConnEvent) (shutdownOk : Bool),
      (handle_connection evs shutdownOk).outcome = none ∨
      (handle_connection evs shutdownOk).outcome = some none ∨
      (handle_connection evs shutdownOk).outcome =
        some (some ConnError.ioError) ∨
      (handle_connection evs shutdownOk).outcome =
        some (some ConnError.bincodeDecode)) := by
  constructor
  · intro p
    cases hdec : AppRequest.decode p with
    | none =>
        left
        simp [handle_request, hdec]
    | some v =>
        obtain ⟨req, r⟩ := v
        right
        exact ⟨AppResponse.encode (AppRequest.handle req),
          by simp [handle_request, hdec]⟩
  · intro evs shutdownOk
    exact runConnectionAux_outcome_cases evs shutdownOk []

end Server
